import Mathlib

/-!
Shallow embedding of the recipe-search engine of `src/painter2.py`.

Modelling conventions:
* Python floats are modelled as exact rationals (`ℚ`).  Every numeric value
  that actually arises in the modelled code paths (multiples of the slider
  step, weighted averages of integers) is exactly representable in binary
  floating point, so the rational model agrees with the float computation.
* RGB colors are integer triples (`ℤ × ℤ × ℤ`).
* `math.sqrt` is strictly monotone and injective on nonnegative reals, so the
  engine's error values are modelled by their squares (`color_error_sq`):
  every ordering, equality and threshold comparison of errors in the source
  (`err < 5`, `sort(key=λx: x[2])`) is stated on squared distances with the
  thresholds squared (`err_sq < 25`).
* Python's `dict` preserves insertion order and `generate_recipes` only uses
  `base_colors_dict.items()`; a palette is therefore modelled directly as the
  association list `base_list` of line 98 of the source.
-/

namespace Painter2

/-- An RGB color: integer channels (in the application always in `[0,255]`). -/
abbrev Color : Type := ℤ × ℤ × ℤ

/-- A color with rational channels (the unrounded weighted average). -/
abbrev QColor : Type := ℚ × ℚ × ℚ

/-- One recipe component: a pigment name with its mixing percentage. -/
abbrev Component : Type := String × ℚ

/-- A recipe: a list of components, as built by `generate_recipes`. -/
abbrev Recipe : Type := List Component

/-- A palette (`base_list` in the source): named pigments in insertion order. -/
abbrev Palette : Type := List (String × Color)

/-- A candidate as stored in the `candidates` list of `generate_recipes`:
`(recipe, mixed_color, squared error)`. -/
abbrev Cand : Type := Recipe × Color × ℚ

/-- Cast an integer color to a rational one. -/
def toQ (c : Color) : QColor := ((c.1 : ℚ), (c.2.1 : ℚ), (c.2.2 : ℚ))

/-- Python's builtin `round`: round half to even (banker's rounding), as used
on the channel averages in `mix_colors`. -/
def python_round (q : ℚ) : ℤ :=
  let f : ℤ := ⌊q⌋
  let frac : ℚ := q - f
  if frac < 1/2 then f
  else if 1/2 < frac then f + 1
  else if f % 2 = 0 then f else f + 1

/-- The accumulating loop of `mix_colors` (lines 75–81):
returns `(total, r_total, g_total, b_total)`. -/
def mix_totals (recipe : List (Color × ℚ)) : ℚ × ℚ × ℚ × ℚ :=
  recipe.foldl
    (fun acc cp =>
      (acc.1 + cp.2,
       acc.2.1 + (cp.1.1 : ℚ) * cp.2,
       acc.2.2.1 + (cp.1.2.1 : ℚ) * cp.2,
       acc.2.2.2 + (cp.1.2.2 : ℚ) * cp.2))
    (0, 0, 0, 0)

/-- `mix_colors` (lines 74–84): weighted average of the component colors,
rounded per channel; `(0,0,0)` when the weights sum to zero. -/
def mix_colors (recipe : List (Color × ℚ)) : Color :=
  let t := mix_totals recipe
  if t.1 = 0 then (0, 0, 0)
  else (python_round (t.2.1 / t.1), python_round (t.2.2.1 / t.1),
        python_round (t.2.2.2 / t.1))

/-- The unrounded weighted average computed inside `mix_colors` just before
rounding (the spec's "unrounded mix"). -/
def mix_colors_unrounded (recipe : List (Color × ℚ)) : QColor :=
  let t := mix_totals recipe
  if t.1 = 0 then (0, 0, 0)
  else (t.2.1 / t.1, t.2.2.1 / t.1, t.2.2.2 / t.1)

/-- Squared Euclidean RGB distance; `color_error` of the source (line 86–87)
is its square root. -/
def color_error_sq (c1 c2 : QColor) : ℚ :=
  (c1.1 - c2.1) ^ 2 + (c1.2.1 - c2.2.1) ^ 2 + (c1.2.2 - c2.2.2) ^ 2

/-- `numpy.arange(start, stop, step)` over exact rationals: `n` values
`start + i*step` where `n = max(⌈(stop-start)/step⌉, 0)`.  (`step = 0` raises
a `ZeroDivisionError` in numpy and is modelled as the empty range; no
concrete evaluation below uses it, and the general theorems below state
structural properties of the pipeline that do not depend on this case.) -/
def np_arange (start stop step : ℚ) : List ℚ :=
  if step = 0 then []
  else (List.range (⌈(stop - start) / step⌉).toNat).map fun i => start + i * step

/-- `itertools.combinations(l, 2)`: ordered pairs in lexicographic index
order. -/
def combinations2 {α : Type} : List α → List (α × α)
  | [] => []
  | x :: xs => (xs.map fun y => (x, y)) ++ combinations2 xs

/-- `itertools.combinations(l, 3)`: ordered triples in lexicographic index
order, as enumerated by line 107 of the source. -/
def combinations3 {α : Type} : List α → List (α × α × α)
  | [] => []
  | x :: xs => ((combinations2 xs).map fun p => (x, p.1, p.2)) ++ combinations3 xs

/-- The near-match special case (lines 100–105): a 100% single-pigment
candidate for every pigment whose distance to the target is below 5
(squared: below 25). -/
def exact_candidates (target : Color) (base_list : Palette) : List Cand :=
  base_list.filterMap fun nc =>
    if color_error_sq (toQ nc.2) (toQ target) < 25 then
      some ([(nc.1, 100)], nc.2, color_error_sq (toQ nc.2) (toQ target))
    else none

/-- The grid enumeration (lines 107–117): for every 3-combination of
pigments, every split `(p1, p2, 100 - p1 - p2)` with nonnegative remainder;
each candidate records the rounded mixed color and its squared distance to
the target. -/
def grid_candidates (target : Color) (base_list : Palette) (step : ℚ) :
    List Cand :=
  (combinations3 base_list).flatMap fun t =>
    (np_arange 0 (100 + step) step).flatMap fun p1 =>
      (np_arange 0 (100 - p1 + step) step).filterMap fun p2 =>
        let p3 := 100 - p1 - p2
        if p3 < 0 then none
        else
          let mixed := mix_colors [(t.1.2, p1), (t.2.1.2, p2), (t.2.2.2, p3)]
          some ([(t.1.1, p1), (t.2.1.1, p2), (t.2.2.1, p3)], mixed,
                color_error_sq (toQ mixed) (toQ target))

/-- The full `candidates` list of `generate_recipes` in build order: the
near-match candidates (appended first) followed by the grid candidates. -/
def raw_candidates (target : Color) (base_list : Palette) (step : ℚ) :
    List Cand :=
  exact_candidates target base_list ++ grid_candidates target base_list step

/-- Insert a candidate into a list after every element of strictly smaller
error: the insertion step of a stable sort on the error key. -/
def insert_cand (c : Cand) : List Cand → List Cand
  | [] => [c]
  | d :: ds => if d.2.2 < c.2.2 then d :: insert_cand c ds else c :: d :: ds

/-- `candidates.sort(key=lambda x: x[2])` (line 118): a stable ascending sort
on the error key (Python's sort is stable). -/
def sort_by_err : List Cand → List Cand
  | [] => []
  | c :: cs => insert_cand c (sort_by_err cs)

/-- Lexicographic comparison of character lists by code point: Python's
string `<`. -/
def chars_lt : List Char → List Char → Bool
  | [], [] => false
  | [], _ :: _ => true
  | _ :: _, [] => false
  | c :: cs, d :: ds => if c < d then true else if d < c then false else chars_lt cs ds

/-- Python's string `<` (lexicographic by code point), on the character
data. -/
def str_lt (a b : String) : Bool := chars_lt a.data b.data

/-- Python tuple comparison on `(name, percentage)` pairs, as used by
`sorted` in the deduplication key (line 122). -/
def component_ltb (a b : Component) : Bool :=
  str_lt a.1 b.1 || (a.1 == b.1 && decide (a.2 < b.2))

/-- Insertion step of the stable sort on components. -/
def insert_component (c : Component) : Recipe → Recipe
  | [] => [c]
  | d :: ds =>
    if component_ltb d c then d :: insert_component c ds else c :: d :: ds

/-- Python's `sorted` on component pairs. -/
def sort_components : Recipe → Recipe
  | [] => []
  | c :: cs => insert_component c (sort_components cs)

/-- The deduplication key of line 122: the sorted tuple of the components
with strictly positive percentage. -/
def recipe_key (rec : Recipe) : Recipe :=
  sort_components (rec.filter fun p => decide (0 < p.2))

/-- The selection loop of lines 119–127: walk the sorted candidates, keep the
first candidate of each unseen key, stop as soon as 3 are kept.  `seen` and
`n` carry the loop state (`seen`, `len(top)`); callers start at `[]`, `0`,
and the loop never begins an iteration with `len(top) ≥ 3`. -/
def select_top : List Cand → List Recipe → Nat → List Cand
  | [], _, _ => []
  | c :: cs, seen, n =>
    let k := recipe_key c.1
    if k ∈ seen then select_top cs seen n
    else if 3 ≤ n + 1 then [c]
    else c :: select_top cs (k :: seen) (n + 1)

/-- `generate_recipes` (lines 89–128): near-match and grid candidates, stably
sorted by error, deduplicated by `recipe_key`, first three kept. -/
def generate_recipes (target : Color) (base_colors_dict : Palette)
    (step : ℚ := 10) : List Cand :=
  select_top (sort_by_err (raw_candidates target base_colors_dict step)) [] 0

/-! ### Properties of the stable sort -/

theorem insert_cand_perm (c : Cand) (l : List Cand) :
    List.Perm (insert_cand c l) (c :: l) := by
  induction l with
  | nil => rfl
  | cons d ds ih =>
    rw [insert_cand]
    split
    · exact (ih.cons d).trans (List.Perm.swap c d ds)
    · exact List.Perm.refl _

theorem sort_by_err_perm (l : List Cand) : List.Perm (sort_by_err l) l := by
  induction l with
  | nil => rfl
  | cons c cs ih => exact (insert_cand_perm c _).trans (ih.cons c)

theorem insert_cand_pairwise {c : Cand} {l : List Cand}
    (h : l.Pairwise fun a b => a.2.2 ≤ b.2.2) :
    (insert_cand c l).Pairwise fun a b => a.2.2 ≤ b.2.2 := by
  induction l with
  | nil => simp [insert_cand]
  | cons d ds ih =>
    rw [insert_cand]
    rw [List.pairwise_cons] at h
    split
    · rename_i hdc
      refine List.pairwise_cons.mpr ⟨?_, ih h.2⟩
      intro a ha
      rcases List.mem_cons.mp ((insert_cand_perm c ds).mem_iff.mp ha) with rfl | hin
      · exact le_of_lt hdc
      · exact h.1 a hin
    · rename_i hdc
      push_neg at hdc
      refine List.pairwise_cons.mpr ⟨?_, List.pairwise_cons.mpr h⟩
      intro a ha
      rcases List.mem_cons.mp ha with rfl | hin
      · exact hdc
      · exact hdc.trans (h.1 a hin)

theorem sort_by_err_pairwise (l : List Cand) :
    (sort_by_err l).Pairwise fun a b => a.2.2 ≤ b.2.2 := by
  induction l with
  | nil => simp [sort_by_err]
  | cons c cs ih => exact insert_cand_pairwise ih

theorem insert_cand_filter (c : Cand) (l : List Cand) (e : ℚ) :
    (insert_cand c l).filter (fun x => decide (x.2.2 = e)) =
      if c.2.2 = e then c :: l.filter (fun x => decide (x.2.2 = e))
      else l.filter (fun x => decide (x.2.2 = e)) := by
  induction l with
  | nil =>
    by_cases hce : c.2.2 = e <;> simp [insert_cand, List.filter, hce]
  | cons d ds ih =>
    rw [insert_cand]
    split
    · rename_i hdc
      by_cases hce : c.2.2 = e
      · have hde : ¬ d.2.2 = e := by
          intro h'
          rw [h', ← hce] at hdc
          exact lt_irrefl _ hdc
        simp [List.filter_cons, ih, hce, hde]
      · simp [List.filter_cons, ih, hce]
    · by_cases hce : c.2.2 = e <;> simp [List.filter_cons, hce]

theorem sort_by_err_filter (l : List Cand) (e : ℚ) :
    (sort_by_err l).filter (fun x => decide (x.2.2 = e)) =
      l.filter (fun x => decide (x.2.2 = e)) := by
  induction l with
  | nil => rfl
  | cons c cs ih =>
    rw [sort_by_err, insert_cand_filter]
    by_cases hce : c.2.2 = e <;> simp [List.filter_cons, hce, ih]

/-! ### Properties of the selection loop -/

theorem select_top_sublist (l : List Cand) (seen : List Recipe) (n : Nat) :
    (select_top l seen n).Sublist l := by
  induction l generalizing seen n with
  | nil => simp [select_top]
  | cons c cs ih =>
    rw [select_top]
    split
    · exact (ih _ _).cons c
    · split
      · exact (List.nil_sublist cs).cons₂ c
      · exact (ih _ _).cons₂ c

theorem select_top_keys (l : List Cand) (seen : List Recipe) (n : Nat) :
    ((select_top l seen n).Pairwise fun a b => recipe_key a.1 ≠ recipe_key b.1) ∧
      ∀ c ∈ select_top l seen n, recipe_key c.1 ∉ seen := by
  induction l generalizing seen n with
  | nil => simp [select_top]
  | cons c cs ih =>
    rw [select_top]
    split
    · exact ih seen n
    · rename_i hk
      split
      · refine ⟨List.pairwise_cons.mpr ⟨by simp, List.Pairwise.nil⟩, ?_⟩
        intro d hd
        rcases List.mem_cons.mp hd with rfl | hin
        · exact hk
        · exact absurd hin (List.not_mem_nil d)
      · have h2 := ih (recipe_key c.1 :: seen) (n + 1)
        refine ⟨List.pairwise_cons.mpr ⟨?_, h2.1⟩, ?_⟩
        · intro d hd heq
          exact h2.2 d hd (heq ▸ List.mem_cons_self _ _)
        · intro d hd
          rcases List.mem_cons.mp hd with rfl | hin
          · exact hk
          · exact fun hmem => h2.2 d hin (List.mem_cons_of_mem _ hmem)

theorem mem_raw_of_mem_generate {t : Color} {bl : Palette} {s : ℚ} {c : Cand}
    (h : c ∈ generate_recipes t bl s) : c ∈ raw_candidates t bl s :=
  (sort_by_err_perm _).mem_iff.mp ((select_top_sublist _ _ _).mem h)

/-! ### Invariants of the candidate pool -/

theorem raw_candidates_err {t : Color} {bl : Palette} {s : ℚ} {c : Cand}
    (hc : c ∈ raw_candidates t bl s) :
    c.2.2 = color_error_sq (toQ c.2.1) (toQ t) := by
  rcases List.mem_append.mp hc with h | h
  · rcases List.mem_filterMap.mp h with ⟨nc, _, heq⟩
    split at heq
    · cases heq; rfl
    · cases heq
  · rcases List.mem_flatMap.mp h with ⟨tr, _, h2⟩
    rcases List.mem_flatMap.mp h2 with ⟨p1, _, h3⟩
    rcases List.mem_filterMap.mp h3 with ⟨p2, _, heq⟩
    simp only at heq
    split at heq
    · cases heq
    · cases heq; rfl

theorem raw_candidates_shape {t : Color} {bl : Palette} {s : ℚ} {c : Cand}
    (hc : c ∈ raw_candidates t bl s) : c.1.length = 1 ∨ c.1.length = 3 := by
  rcases List.mem_append.mp hc with h | h
  · rcases List.mem_filterMap.mp h with ⟨nc, _, heq⟩
    split at heq
    · cases heq; exact Or.inl rfl
    · cases heq
  · rcases List.mem_flatMap.mp h with ⟨tr, _, h2⟩
    rcases List.mem_flatMap.mp h2 with ⟨p1, _, h3⟩
    rcases List.mem_filterMap.mp h3 with ⟨p2, _, heq⟩
    simp only at heq
    split at heq
    · cases heq
    · cases heq; exact Or.inr rfl

theorem mem_exact_candidates {t : Color} {bl : Palette} {nc : String × Color}
    (hmem : nc ∈ bl) (hnear : color_error_sq (toQ nc.2) (toQ t) < 25) :
    ([(nc.1, 100)], nc.2, color_error_sq (toQ nc.2) (toQ t)) ∈
      exact_candidates t bl :=
  List.mem_filterMap.mpr ⟨nc, hmem, by rw [if_pos hnear]⟩

/-! ### The accumulating loop of `mix_colors` -/

theorem mix_totals_go (recipe : List (Color × ℚ)) (a b c d : ℚ) :
    recipe.foldl
        (fun acc cp =>
          (acc.1 + cp.2,
           acc.2.1 + (cp.1.1 : ℚ) * cp.2,
           acc.2.2.1 + (cp.1.2.1 : ℚ) * cp.2,
           acc.2.2.2 + (cp.1.2.2 : ℚ) * cp.2)) (a, b, c, d) =
      (a + (recipe.map fun p => p.2).sum,
       b + (recipe.map fun p => (p.1.1 : ℚ) * p.2).sum,
       c + (recipe.map fun p => (p.1.2.1 : ℚ) * p.2).sum,
       d + (recipe.map fun p => (p.1.2.2 : ℚ) * p.2).sum) := by
  induction recipe generalizing a b c d with
  | nil => simp
  | cons hd tl ih =>
    simp [List.foldl_cons, ih, add_assoc]

theorem mix_totals_eq (recipe : List (Color × ℚ)) :
    mix_totals recipe =
      ((recipe.map fun p => p.2).sum,
       (recipe.map fun p => (p.1.1 : ℚ) * p.2).sum,
       (recipe.map fun p => (p.1.2.1 : ℚ) * p.2).sum,
       (recipe.map fun p => (p.1.2.2 : ℚ) * p.2).sum) := by
  simpa using mix_totals_go recipe 0 0 0 0

/-! ### Emptiness of the grid enumeration -/

theorem combinations3_eq_nil {α : Type} {l : List α} (h : l.length < 3) :
    combinations3 l = [] := by
  rcases l with _ | ⟨a, _ | ⟨b, _ | ⟨c, t⟩⟩⟩
  · rfl
  · rfl
  · rfl
  · simp at h
    omega

theorem flatMap_const_nil {α β : Type} (l : List α) :
    (l.flatMap fun _ => ([] : List β)) = [] := by
  induction l <;> simp [List.flatMap_cons, *]

theorem np_arange_neg_step {stop s : ℚ} (hs : s < 0) (hstop : 0 < stop) :
    np_arange 0 stop s = [] := by
  rw [np_arange, if_neg (ne_of_lt hs)]
  have hq : (stop - 0) / s < 0 := div_neg_of_pos_of_neg (by simpa using hstop) hs
  have hceil : ⌈(stop - 0) / s⌉ ≤ 0 := Int.ceil_le.mpr (by exact_mod_cast hq.le)
  rw [Int.toNat_of_nonpos hceil]
  rfl

theorem grid_candidates_neg_step {t : Color} {bl : Palette} {s : ℚ}
    (h1 : s < 0) (h2 : -100 < s) :
    grid_candidates t bl s = [] := by
  rw [grid_candidates]
  have harange : np_arange 0 (100 + s) s = [] :=
    np_arange_neg_step h1 (by linarith)
  simp only [harange, List.flatMap_nil]
  exact flatMap_const_nil _

/-! ### Range of the rounded weighted average -/

theorem python_round_bounds {q : ℚ} (h0 : 0 ≤ q) (h255 : q ≤ 255) :
    0 ≤ python_round q ∧ python_round q ≤ 255 := by
  have hf0 : (0 : ℤ) ≤ ⌊q⌋ := Int.le_floor.mpr (by exact_mod_cast h0)
  have hf255 : ⌊q⌋ ≤ 255 := by
    have := Int.floor_le_floor (α := ℚ) h255
    simpa using this
  rw [python_round]
  split
  · exact ⟨hf0, hf255⟩
  · have hhalf : (1 : ℚ) / 2 ≤ q - ⌊q⌋ := by linarith [not_lt.mp (by assumption)]
    have hlt : ⌊q⌋ < 255 := by
      by_contra hc
      have h255' : ⌊q⌋ = 255 := le_antisymm hf255 (not_lt.mp hc)
      have : (255 : ℚ) + 1 / 2 ≤ q := by
        have := hhalf
        rw [h255'] at this
        push_cast at this
        linarith
      linarith
    split
    · exact ⟨by omega, by omega⟩
    · split <;> exact ⟨by omega, by omega⟩

theorem weighted_round_bounds (recipe : List (Color × ℚ)) (g : Color × ℚ → ℤ)
    (hg : ∀ p ∈ recipe, 0 ≤ g p ∧ g p ≤ 255)
    (hp : ∀ p ∈ recipe, 0 ≤ p.2)
    (hs : 0 < (recipe.map fun p => p.2).sum) :
    0 ≤ python_round ((recipe.map fun p => (g p : ℚ) * p.2).sum /
        (recipe.map fun p => p.2).sum) ∧
      python_round ((recipe.map fun p => (g p : ℚ) * p.2).sum /
        (recipe.map fun p => p.2).sum) ≤ 255 := by
  have h1 : 0 ≤ (recipe.map fun p => (g p : ℚ) * p.2).sum := by
    apply List.sum_nonneg
    intro x hx
    rcases List.mem_map.mp hx with ⟨p, hp', rfl⟩
    exact mul_nonneg (by exact_mod_cast (hg p hp').1) (hp p hp')
  have h2 : (recipe.map fun p => (g p : ℚ) * p.2).sum ≤
      255 * (recipe.map fun p => p.2).sum := by
    rw [← List.sum_map_mul_left]
    apply List.sum_le_sum
    intro p hp'
    exact mul_le_mul_of_nonneg_right (by exact_mod_cast (hg p hp').2) (hp p hp')
  exact python_round_bounds (div_nonneg h1 hs.le)
    ((div_le_iff₀ hs).mpr (by linarith))

/-! ### Claim theorems

The rational arithmetic of Batteries is `@[irreducible]`; the kernel ignores
reducibility attributes, and the concrete evaluations below are checked by
`decide`, so the operations are made semireducible for the rest of this
file. -/

attribute [local semireducible] Rat.add Rat.mul Rat.sub Rat.inv Rat.ofScientific

set_option maxRecDepth 8000

/-- C1, counterexample.  For the palette `{A,B,C}` of primaries, target
`(255,0,0)` and step 50, the returned candidate `[A:50, B:0, C:50]` records
error² 32513, which is the squared distance from the target to the ROUNDED
mixed color `(128,0,128)`, not the squared distance `65025/2 = 32512.5` to
the unrounded mix `(127.5, 0, 127.5)`: the claim that the recorded error is
the distance to the unrounded mix is false. -/
theorem error_differs_from_unrounded_distance :
    (([("A", 50), ("B", 0), ("C", 50)], ((128 : ℤ), 0, 128), (32513 : ℚ)) ∈
        generate_recipes (255, 0, 0)
          ([("A", (255, 0, 0)), ("B", (0, 255, 0)), ("C", (0, 0, 255))] :
            Palette) 50) ∧
      color_error_sq (toQ ((128 : ℤ), 0, 128)) (toQ ((255 : ℤ), 0, 0)) =
        32513 ∧
      color_error_sq
          (mix_colors_unrounded
            [((255, 0, 0), 50), ((0, 255, 0), 0), ((0, 0, 255), 50)])
          (toQ ((255 : ℤ), 0, 0)) = 65025 / 2 ∧
      (32513 : ℚ) ≠ 65025 / 2 := by decide

/-- C1, amended.  Every candidate returned by `generate_recipes` records as
its error the (squared) Euclidean distance between the target and its rounded
integer mixed color — the distance to the rounded mix, not to the unrounded
one. -/
theorem error_is_distance_to_rounded_mix (t : Color) (bl : Palette) (s : ℚ) :
    ∀ c ∈ generate_recipes t bl s, c.2.2 = color_error_sq (toQ c.2.1) (toQ t) :=
  fun _ hc => raw_candidates_err (mem_raw_of_mem_generate hc)

/-- Witness for C1's amended theorem at the candidate `[A:100]` of the
primaries palette. -/
theorem error_is_distance_to_rounded_mix_witness :
    (([("A", (100 : ℚ))], ((255 : ℤ), 0, 0), (0 : ℚ)) : Cand).2.2 =
      color_error_sq (toQ ((255 : ℤ), 0, 0)) (toQ ((255 : ℤ), 0, 0)) :=
  error_is_distance_to_rounded_mix (255, 0, 0)
    ([("A", (255, 0, 0)), ("B", (0, 255, 0)), ("C", (0, 0, 255))] : Palette) 50
    ([("A", (100 : ℚ))], ((255 : ℤ), 0, 0), (0 : ℚ)) (by decide)

/-- C2, counterexample.  A recipe whose percentages sum to zero mixes to
black `(0,0,0)` (line 83 of the source), not to the pure white
`(255,255,255)` the claim states. -/
theorem mix_colors_zero_sum_black_not_white :
    mix_colors [(((10 : ℤ), 20, 30), (0 : ℚ))] = (0, 0, 0) ∧
      ((0, 0, 0) : Color) ≠ (255, 255, 255) := by decide

/-- C2, amended.  For every recipe whose percentages sum to exactly zero,
`mix_colors` returns black `(0,0,0)` as its fallback result rather than
raising an error. -/
theorem mix_colors_zero_sum_eq_black (recipe : List (Color × ℚ))
    (h : (recipe.map fun p => p.2).sum = 0) : mix_colors recipe = (0, 0, 0) := by
  have ht : (mix_totals recipe).1 = 0 := by rw [mix_totals_eq]; exact h
  simp only [mix_colors]
  rw [if_pos ht]

/-- Witness for C2's amended theorem on a one-component zero-weight
recipe. -/
theorem mix_colors_zero_sum_eq_black_witness :
    mix_colors [(((10 : ℤ), 20, 30), (0 : ℚ)), (((200 : ℤ), 5, 5), (0 : ℚ))] =
      (0, 0, 0) :=
  mix_colors_zero_sum_eq_black _ (by decide)

/-- C3, counterexample.  The source defines no `InvalidPalette` error: called
on a 2-pigment palette (with the implicit subset size 3) `generate_recipes`
does not fail fast but returns a result — here the empty list, since the
3-combination enumeration of a 2-element palette is empty and neither pigment
is within the near-match threshold of the target. -/
theorem small_palette_returns_normally :
    generate_recipes (0, 0, 255)
        ([("A", (255, 0, 0)), ("B", (0, 255, 0))] : Palette) 50 = [] := by
  decide

/-- C3, amended.  `generate_recipes` performs no palette-size validation:
for any palette with fewer than 3 pigments the grid enumeration is empty and
the call returns normally, yielding exactly the deduplicated near-match
candidates (possibly the empty list) instead of an `InvalidPalette` error. -/
theorem small_palette_no_validation (t : Color) (bl : Palette) (s : ℚ)
    (h : bl.length < 3) :
    generate_recipes t bl s =
      select_top (sort_by_err (exact_candidates t bl)) [] 0 := by
  rw [generate_recipes, raw_candidates, grid_candidates, combinations3_eq_nil h]
  simp

/-- Witness for C3's amended theorem on a concrete 2-pigment palette. -/
theorem small_palette_no_validation_witness :
    generate_recipes (0, 0, 255)
        ([("A", (255, 0, 0)), ("B", (0, 255, 0))] : Palette) 40 =
      select_top
        (sort_by_err (exact_candidates (0, 0, 255)
          ([("A", (255, 0, 0)), ("B", (0, 255, 0))] : Palette))) [] 0 :=
  small_palette_no_validation (0, 0, 255)
    ([("A", (255, 0, 0)), ("B", (0, 255, 0))] : Palette) 40 (by decide)

/-- C4, counterexample.  For the palette `{A: (255,0,0), B: (0,255,0)}`,
target `(128,128,0)` and step 50, the top recipe is NOT
`[("A",50),("B",50)]` with mixed color `(128,128,0)` and error 0: the result
has no first entry at all. -/
theorem two_pigment_scenario_top_recipe_cex :
    (generate_recipes (128, 128, 0)
        ([("A", (255, 0, 0)), ("B", (0, 255, 0))] : Palette) 50).head? ≠
      some ([("A", 50), ("B", 50)], ((128 : ℤ), 128, 0), 0) := by decide

/-- C4, amended.  For the palette `{A: (255,0,0), B: (0,255,0)}`, target
`(128,128,0)` and step 50, `generate_recipes` returns the empty list: the
grid only enumerates 3-pigment combinations, of which a 2-pigment palette
has none, and neither pigment is within the near-match threshold, so the
splits `(0,100)`, `(50,50)`, `(100,0)` are never formed. -/
theorem two_pigment_scenario_returns_empty :
    generate_recipes (128, 128, 0)
        ([("A", (255, 0, 0)), ("B", (0, 255, 0))] : Palette) 50 = [] := by
  decide

/-- C5, counterexample.  For the primaries palette, target `(0,0,0)` and
step 50, the first returned recipe is `[A:0, B:50, C:50]`, which still
contains the zero-percentage component `("A", 0)`: zero components are NOT
dropped from the returned recipes. -/
theorem returned_recipe_contains_zero_component :
    (generate_recipes (0, 0, 0)
          ([("A", (255, 0, 0)), ("B", (0, 255, 0)), ("C", (0, 0, 255))] :
            Palette) 50).head? =
        some ([("A", 0), ("B", 50), ("C", 50)], ((0 : ℤ), 128, 128), 32768) ∧
      ("A", (0 : ℚ)) ∈ ([("A", (0 : ℚ)), ("B", 50), ("C", 50)] : Recipe) := by
  decide

/-- C5, amended.  Zero-percentage components are ignored by the
deduplication identity (`recipe_key` filters them out) but are NOT dropped
from the returned recipes: every returned recipe keeps its full component
list — a single near-match component or all 3 grid components, zeros
included. -/
theorem zero_components_kept_in_output (t : Color) (bl : Palette) (s : ℚ) :
    (∀ c ∈ generate_recipes t bl s, c.1.length = 1 ∨ c.1.length = 3) ∧
      ∀ rec : Recipe,
        recipe_key (rec.filter fun p => decide (0 < p.2)) = recipe_key rec := by
  constructor
  · exact fun _ hc => raw_candidates_shape (mem_raw_of_mem_generate hc)
  · intro rec
    rw [recipe_key, recipe_key, List.filter_filter]
    simp

/-- Witness for C5's amended theorem at the first recipe returned for the
primaries palette and target `(0,0,0)`. -/
theorem zero_components_kept_in_output_witness :
    (([("A", (0 : ℚ)), ("B", 50), ("C", 50)] : Recipe).length = 1 ∨
      ([("A", (0 : ℚ)), ("B", 50), ("C", 50)] : Recipe).length = 3) :=
  (zero_components_kept_in_output (0, 0, 0)
      ([("A", (255, 0, 0)), ("B", (0, 255, 0)), ("C", (0, 0, 255))] : Palette)
      50).1
    ([("A", (0 : ℚ)), ("B", 50), ("C", 50)], ((0 : ℤ), 128, 128), (32768 : ℚ))
    (by decide)

/-- C6.  For every palette, target and step, `generate_recipes` returns a
list sorted ascending by error (pairwise, so in particular adjacent pairs),
obtained as a subsequence of the stably sorted candidate list; the sort is
stable: for every error value, the candidates carrying that error appear in
the sorted list exactly in their first-seen enumeration order. -/
theorem generate_recipes_sorted_stable (t : Color) (bl : Palette) (s : ℚ) :
    ((generate_recipes t bl s).Pairwise fun a b => a.2.2 ≤ b.2.2) ∧
      (generate_recipes t bl s).Sublist
        (sort_by_err (raw_candidates t bl s)) ∧
      ∀ (l : List Cand) (e : ℚ),
        (sort_by_err l).filter (fun x => decide (x.2.2 = e)) =
          l.filter (fun x => decide (x.2.2 = e)) :=
  ⟨(sort_by_err_pairwise (raw_candidates t bl s)).sublist
      (select_top_sublist _ _ _),
    select_top_sublist _ _ _, fun l e => sort_by_err_filter l e⟩

/-- C7.  For every palette, target and step, any two distinct entries of the
returned list have distinct deduplication identities: the sorted set of their
positive-percentage `(name, percentage)` pairs (`recipe_key`).  In
particular a near-match candidate and an identical `100/0/0` grid candidate
appear at most once. -/
theorem generate_recipes_distinct_identities (t : Color) (bl : Palette)
    (s : ℚ) :
    (generate_recipes t bl s).Pairwise
      fun a b => recipe_key a.1 ≠ recipe_key b.1 :=
  (select_top_keys (sort_by_err (raw_candidates t bl s)) [] 0).1

/-- C8, counterexample.  In the palette `{A:(126,0,0), B:(28,0,0),
C:(228,0,0)}` with target `(128,0,0)` and step 50, pigment `A` is within the
near-match threshold (squared distance 4 < 25), yet the first returned entry
is the grid candidate `[A:0, B:50, C:50]` with error 0 — not the
single-pigment 100% recipe for `A` (whose error² is 4): the claimed shape of
the first entry is false. -/
theorem near_pigment_not_first_entry :
    color_error_sq (toQ ((126 : ℤ), 0, 0)) (toQ ((128 : ℤ), 0, 0)) < 25 ∧
      ("A", ((126 : ℤ), 0, 0)) ∈
        ([("A", (126, 0, 0)), ("B", (28, 0, 0)), ("C", (228, 0, 0))] :
          Palette) ∧
      (generate_recipes (128, 0, 0)
          ([("A", (126, 0, 0)), ("B", (28, 0, 0)), ("C", (228, 0, 0))] :
            Palette) 50).head? =
        some ([("A", 0), ("B", 50), ("C", 50)], ((128 : ℤ), 0, 0), 0) := by
  decide

/-- C8, amended.  For every pigment within the near-match threshold of the
target, the single-pigment 100% candidate (with error equal to the pigment's
direct distance) is added to the candidate pool; the first returned entry is
the overall minimum-error candidate, which need not be that single-pigment
recipe.  In the scenario of the primaries palette with target `(255,0,0)`
the top recipe is `[("A", 100)]` with error 0. -/
theorem near_match_candidate_and_scenario :
    (∀ (t : Color) (bl : Palette) (s : ℚ) (nc : String × Color), nc ∈ bl →
        color_error_sq (toQ nc.2) (toQ t) < 25 →
        ([(nc.1, 100)], nc.2, color_error_sq (toQ nc.2) (toQ t)) ∈
          raw_candidates t bl s) ∧
      (generate_recipes (255, 0, 0)
          ([("A", (255, 0, 0)), ("B", (0, 255, 0)), ("C", (0, 0, 255))] :
            Palette) 50).head? =
        some ([("A", 100)], ((255 : ℤ), 0, 0), 0) := by
  constructor
  · intro t bl s nc hmem hnear
    exact List.mem_append_left _ (mem_exact_candidates hmem hnear)
  · decide

/-- Witness for C8's amended theorem: the near-match candidate for pigment
`A` of the primaries palette is in the candidate pool. -/
theorem near_match_candidate_and_scenario_witness :
    ([("A", (100 : ℚ))], ((255 : ℤ), 0, 0),
        color_error_sq (toQ ((255 : ℤ), 0, 0)) (toQ ((255 : ℤ), 0, 0))) ∈
      raw_candidates (255, 0, 0)
        ([("A", (255, 0, 0)), ("B", (0, 255, 0)), ("C", (0, 0, 255))] :
          Palette) 50 :=
  near_match_candidate_and_scenario.1 (255, 0, 0) _ 50 ("A", (255, 0, 0))
    (by decide) (by decide)

/-- C9, counterexample.  The source performs no configuration validation:
called with the invalid step `-10`, `generate_recipes` is not rejected with
`InvalidConfiguration` but returns normally (the grid ranges are empty, so
only the near-match candidate for `A` is produced). -/
theorem negative_step_not_rejected :
    generate_recipes (255, 0, 0)
        ([("A", (255, 0, 0)), ("B", (0, 255, 0)), ("C", (0, 0, 255))] :
          Palette) (-10) =
      [([("A", 100)], ((255 : ℤ), 0, 0), 0)] := by decide

/-- C9, amended.  `generate_recipes` rejects no configuration: for every
step `s` with `-100 < s < 0` the `arange` grids are empty, and the call
returns the deduplicated near-match candidates normally instead of failing
with `InvalidConfiguration`.  (At `s = 0` the underlying `numpy.arange`
raises an unrelated `ZeroDivisionError`, still not an `InvalidConfiguration`
error.) -/
theorem no_config_validation_negative_step (t : Color) (bl : Palette)
    (s : ℚ) (h1 : s < 0) (h2 : -100 < s) :
    generate_recipes t bl s =
      select_top (sort_by_err (exact_candidates t bl)) [] 0 := by
  rw [generate_recipes, raw_candidates, grid_candidates_neg_step h1 h2,
    List.append_nil]

/-- Witness for C9's amended theorem at step `-7`. -/
theorem no_config_validation_negative_step_witness :
    generate_recipes (9, 9, 9) ([("X", (1, 2, 3))] : Palette) (-7) =
      select_top
        (sort_by_err (exact_candidates (9, 9, 9)
          ([("X", (1, 2, 3))] : Palette))) [] 0 :=
  no_config_validation_negative_step (9, 9, 9) ([("X", (1, 2, 3))] : Palette)
    (-7) (by decide) (by decide)

/-- C10.  For every recipe whose component colors have all channels in
`[0,255]` and whose percentages are nonnegative with positive sum,
`mix_colors` returns an integer triple with every channel in `[0,255]`: the
rounded weighted average cannot leave the channel range, with no explicit
clamping. -/
theorem mix_colors_channels_in_range (recipe : List (Color × ℚ))
    (hc : ∀ p ∈ recipe,
      (0 ≤ p.1.1 ∧ p.1.1 ≤ 255) ∧ (0 ≤ p.1.2.1 ∧ p.1.2.1 ≤ 255) ∧
        (0 ≤ p.1.2.2 ∧ p.1.2.2 ≤ 255))
    (hp : ∀ p ∈ recipe, 0 ≤ p.2)
    (hs : 0 < (recipe.map fun p => p.2).sum) :
    (0 ≤ (mix_colors recipe).1 ∧ (mix_colors recipe).1 ≤ 255) ∧
      (0 ≤ (mix_colors recipe).2.1 ∧ (mix_colors recipe).2.1 ≤ 255) ∧
      (0 ≤ (mix_colors recipe).2.2 ∧ (mix_colors recipe).2.2 ≤ 255) := by
  have hne : ¬ (mix_totals recipe).1 = 0 := by
    rw [mix_totals_eq]
    exact ne_of_gt hs
  have hmc : mix_colors recipe =
      (python_round ((recipe.map fun p => (p.1.1 : ℚ) * p.2).sum /
          (recipe.map fun p => p.2).sum),
       python_round ((recipe.map fun p => (p.1.2.1 : ℚ) * p.2).sum /
          (recipe.map fun p => p.2).sum),
       python_round ((recipe.map fun p => (p.1.2.2 : ℚ) * p.2).sum /
          (recipe.map fun p => p.2).sum)) := by
    simp only [mix_colors]
    rw [if_neg hne, mix_totals_eq]
  rw [hmc]
  exact ⟨weighted_round_bounds recipe (fun p => p.1.1)
      (fun p hp' => (hc p hp').1) hp hs,
    weighted_round_bounds recipe (fun p => p.1.2.1)
      (fun p hp' => (hc p hp').2.1) hp hs,
    weighted_round_bounds recipe (fun p => p.1.2.2)
      (fun p hp' => (hc p hp').2.2) hp hs⟩

/-- Witness for C10 on a two-component recipe. -/
theorem mix_colors_channels_in_range_witness :
    (0 ≤ (mix_colors [(((255 : ℤ), 0, 0), (50 : ℚ)), (((0 : ℤ), 255, 0), (50 : ℚ))]).1 ∧
        (mix_colors [(((255 : ℤ), 0, 0), (50 : ℚ)), (((0 : ℤ), 255, 0), (50 : ℚ))]).1 ≤ 255) ∧
      (0 ≤ (mix_colors [(((255 : ℤ), 0, 0), (50 : ℚ)), (((0 : ℤ), 255, 0), (50 : ℚ))]).2.1 ∧
        (mix_colors [(((255 : ℤ), 0, 0), (50 : ℚ)), (((0 : ℤ), 255, 0), (50 : ℚ))]).2.1 ≤ 255) ∧
      (0 ≤ (mix_colors [(((255 : ℤ), 0, 0), (50 : ℚ)), (((0 : ℤ), 255, 0), (50 : ℚ))]).2.2 ∧
        (mix_colors [(((255 : ℤ), 0, 0), (50 : ℚ)), (((0 : ℤ), 255, 0), (50 : ℚ))]).2.2 ≤ 255) :=
  mix_colors_channels_in_range
    [(((255 : ℤ), 0, 0), (50 : ℚ)), (((0 : ℤ), 255, 0), (50 : ℚ))]
    (by decide) (by decide) (by decide)

end Painter2
